import Mathlib

/-!
Verification development for the return-keypad firmware.

The definitions below are a shallow embedding of the key-handling logic of
`code.py` (`scan_keys` / `update_number_display`), of the allowlist lookup in
`allowlist_reader.py` (`lookup_student` / `_split_line` / `_row_matches`), and
of the text-writing helper `RGB1602.write_text` in `rgb1602.py`.  Python lists
of one-character key-label strings become `List String`, Python strings become
`String`, the fallible file read becomes an `Except` input, and printed
diagnostics become an explicit message trace.
-/

namespace Keypad

/-- Key-number-to-label table, from `KEY_LABELS` in `code.py`. -/
def KEY_LABELS : List (Nat × String) :=
  [(0, "Num Lock"), (1, "*"), (2, "-"), (3, "/"),
   (4, "7"), (5, "8"), (6, "9"), (7, "+"),
   (8, "4"), (9, "5"), (10, "6"),
   (12, "1"), (13, "2"), (14, "3"), (15, "Enter"),
   (16, "0"), (18, ".")]

/-- Dictionary lookup `KEY_LABELS[key]`; `none` when the key number is absent
(`key in KEY_LABELS` is false in `scan_keys`). -/
def keyLabel (k : Nat) : Option String :=
  (KEY_LABELS.find? (fun p => p.1 == k)).map Prod.snd

/-- The labels accepted by the number-input branch of `scan_keys`
(`key_label in ['0', ..., '9', '.']`). -/
def digitLabels : List String :=
  ["0", "1", "2", "3", "4", "5", "6", "7", "8", "9", "."]

/-- Observable outcome of handling one newly pressed, mapped key in
`scan_keys`: the buffer afterwards, the value of an emitted
`number entered` event if any, the text written to the number-input label if
it was updated, and the status text if it was updated. -/
structure KeyOutcome where
  buffer : List String
  submitted : Option String
  numberDisplay : Option String
  status : Option String
deriving DecidableEq

/-- Python `str.ljust(width, fill)`: pad on the right up to `width`;
a string already at least `width` long is returned unchanged. -/
def ljust (s : String) (width : Nat) (fill : Char) : String :=
  s ++ String.mk (List.replicate (width - s.length) fill)

/-- The string computed by `update_number_display` in `code.py`:
`''.join(number_buffer).ljust(5, '_')`. -/
def numberDisplayString (buffer : List String) : String :=
  ljust (String.join buffer) 5 '_'

/-- The number-input dispatch of `scan_keys` (`code.py` lines 102-128) for a
newly pressed key with label `label`, acting on `number_buffer`. -/
def handleKeyLabel (buffer : List String) (label : String) : KeyOutcome :=
  if label ∈ digitLabels then
    if buffer.length < 5 then
      { buffer := buffer ++ [label], submitted := none,
        numberDisplay := some (numberDisplayString (buffer ++ [label])),
        status := some "Typing" }
    else
      { buffer := buffer, submitted := none, numberDisplay := none,
        status := none }
  else if label = "Enter" then
    if buffer ≠ [] then
      { buffer := [], submitted := some (String.join buffer),
        numberDisplay := some (numberDisplayString []),
        status := some ("Entered " ++ String.join buffer) }
    else
      { buffer := buffer, submitted := none, numberDisplay := none,
        status := some "Enter (empty)" }
  else if label = "-" then
    { buffer := [], submitted := none,
      numberDisplay := some (numberDisplayString []),
      status := some "Cleared" }
  else
    { buffer := buffer, submitted := none, numberDisplay := none,
      status := some ("Pressed " ++ label) }

/-- Handling of a newly pressed key number: only keys present in
`KEY_LABELS` are processed (`if key is not None and key in KEY_LABELS`). -/
def handleKeyNumber (buffer : List String) (k : Nat) : KeyOutcome :=
  match keyLabel k with
  | some l => handleKeyLabel buffer l
  | none =>
    { buffer := buffer, submitted := none, numberDisplay := none,
      status := none }

/-- Buffer evolution over a sequence of pressed key labels, starting from the
empty `number_buffer` created at program start. -/
def pressAll (ls : List String) : List String :=
  ls.foldl (fun b l => (handleKeyLabel b l).buffer) []

/-- C9: pressing the `-` key (key number 2) unconditionally empties the digit
buffer to length 0, discarding any in-progress entry: the outcome is the empty
buffer, no submission, the display reset to five underscores, and the status
text `Cleared`. -/
theorem minus_key_clears_buffer (buffer : List String) :
    handleKeyNumber buffer 2 =
      { buffer := [], submitted := none,
        numberDisplay := some "_____", status := some "Cleared" } := by
  have hmem : ¬ ("-" ∈ digitLabels) := by decide
  have hdisp : numberDisplayString [] = "_____" := by decide
  simp [handleKeyNumber, keyLabel, KEY_LABELS, handleKeyLabel, hmem, hdisp]

/-- C1 counterexample: with only 4 digits in the buffer, pressing Enter does
submit (the joined value `1234` is emitted) and the buffer is cleared, contrary
to the claim that nothing is submitted below 5 digits and the buffer is left
unchanged. -/
theorem enter_partial_buffer_submits :
    (handleKeyLabel ["1", "2", "3", "4"] "Enter").submitted = some "1234" ∧
    (handleKeyLabel ["1", "2", "3", "4"] "Enter").buffer = [] ∧
    (["1", "2", "3", "4"] : List String).length = 4 := by
  decide

/-- C1 (amended): pressing Enter submits the joined buffer contents whenever
the buffer is non-empty — any length from 1 to 5 — and then clears the buffer;
pressing Enter on an empty buffer submits nothing, leaves the buffer unchanged
and sets the status to `Enter (empty)`. -/
theorem enter_submits_iff_nonempty (buffer : List String) :
    (handleKeyLabel buffer "Enter").submitted =
      (if buffer = [] then none else some (String.join buffer)) ∧
    (handleKeyLabel buffer "Enter").buffer =
      (if buffer = [] then buffer else []) ∧
    (handleKeyLabel buffer "Enter").status =
      (if buffer = [] then some "Enter (empty)"
       else some ("Entered " ++ String.join buffer)) := by
  have hmem : ¬ ("Enter" ∈ digitLabels) := by decide
  by_cases hb : buffer = [] <;>
    simp [handleKeyLabel, hmem, hb]

/-- C3 counterexample: on the buffer `["1"]` of length 1, pressing the Back /
Num Lock key (key number 0) leaves the buffer at length 1 — it does not remove
the last element; the only effect is the status text `Pressed Num Lock`. -/
theorem num_lock_does_not_backspace :
    (handleKeyNumber ["1"] 0).buffer = ["1"] ∧
    (handleKeyNumber ["1"] 0).status = some "Pressed Num Lock" := by
  decide

/-- C3 (amended): the Num Lock key performs no buffer edit at all: for every
buffer, empty or not, it leaves the buffer unchanged, removes nothing, submits
nothing and updates no display; it only sets the status text to
`Pressed Num Lock`.  No backspace operation exists in the key dispatch. -/
theorem num_lock_is_buffer_noop (buffer : List String) :
    handleKeyNumber buffer 0 =
      { buffer := buffer, submitted := none, numberDisplay := none,
        status := some "Pressed Num Lock" } := by
  have hmem : ¬ ("Num Lock" ∈ digitLabels) := by decide
  simp [handleKeyNumber, keyLabel, KEY_LABELS, handleKeyLabel, hmem]

/-- Buffer effect of one digit-key press: guarded append
(`if len(number_buffer) < 5: number_buffer.append(key_label)`). -/
theorem handleKeyLabel_digit_buffer (buffer : List String) (l : String)
    (hl : l ∈ digitLabels) :
    (handleKeyLabel buffer l).buffer =
      (if buffer.length < 5 then buffer ++ [l] else buffer) := by
  by_cases h5 : buffer.length < 5 <;> simp [handleKeyLabel, hl, h5]

theorem pressAll_go_length (ls : List String) :
    ∀ b : List String, (∀ l ∈ ls, l ∈ digitLabels) → b.length ≤ 5 →
      (ls.foldl (fun b l => (handleKeyLabel b l).buffer) b).length =
        min (b.length + ls.length) 5 := by
  induction ls with
  | nil => intro b _ hb; simpa using (Nat.min_eq_left hb).symm
  | cons l ls ih =>
    intro b hls hb
    have hl : l ∈ digitLabels := hls l (List.mem_cons_self l ls)
    have hrest : ∀ x ∈ ls, x ∈ digitLabels := fun x hx =>
      hls x (List.mem_cons_of_mem l hx)
    have hbuf := handleKeyLabel_digit_buffer b l hl
    by_cases h5 : b.length < 5
    · have hlen : (handleKeyLabel b l).buffer.length = b.length + 1 := by
        simp [hbuf, h5]
      have := ih (handleKeyLabel b l).buffer hrest (by omega)
      simp only [List.foldl_cons]
      rw [this, hlen, List.length_cons]
      omega
    · have hlen : (handleKeyLabel b l).buffer.length = b.length := by
        simp [hbuf, h5]
      have := ih (handleKeyLabel b l).buffer hrest (by omega)
      simp only [List.foldl_cons]
      rw [this, hlen, List.length_cons]
      omega

/-- C2: starting from the empty buffer, after any sequence of digit-key
presses the buffer length is `min N 5`; and a digit press on a buffer already
holding 5 elements is a complete no-op: buffer unchanged, nothing submitted,
no display update and no status update (the success path's render and
`Typing` status are the code's only success report, and both are absent). -/
theorem digit_appends_bounded (ls : List String)
    (hls : ∀ l ∈ ls, l ∈ digitLabels)
    (b : List String) (l : String) (hl : l ∈ digitLabels)
    (hb : b.length = 5) :
    (pressAll ls).length = min ls.length 5 ∧
    handleKeyLabel b l =
      { buffer := b, submitted := none, numberDisplay := none,
        status := none } := by
  constructor
  · have := pressAll_go_length ls [] hls (by simp)
    simpa [pressAll] using this
  · have h5 : ¬ b.length < 5 := by omega
    simp [handleKeyLabel, hl, h5]

/-- C2 witness: six presses of digit keys leave a buffer of length `min 6 5 =
5`, and a sixth digit pressed on the full five-element buffer changes
nothing. -/
theorem digit_appends_bounded_witness :
    (pressAll ["1", "2", "3", "4", "5", "6"]).length = min 6 5 ∧
    handleKeyLabel ["1", "2", "3", "4", "5"] "6" =
      { buffer := ["1", "2", "3", "4", "5"], submitted := none,
        numberDisplay := none, status := none } :=
  digit_appends_bounded ["1", "2", "3", "4", "5", "6"] (by decide)
    ["1", "2", "3", "4", "5"] "6" (by decide) (by decide)

/-- One key event acting on the pair (buffer, currently rendered
number-input text): when the handler updates the number-input label the new
text is shown, otherwise the previous text remains. -/
def stepKey (st : List String × String) (l : String) : List String × String :=
  ((handleKeyLabel st.1 l).buffer,
    ((handleKeyLabel st.1 l).numberDisplay).getD st.2)

/-- State after a sequence of key events, from the initial empty buffer and
the `"_____"` placeholder the number-input label is created with. -/
def runKeys (ls : List String) : List String × String :=
  ls.foldl stepKey ([], "_____")

theorem join_foldl_length (l : List String) :
    ∀ acc : String, (l.foldl (fun r s => r ++ s) acc).length =
      acc.length + (l.map String.length).sum := by
  induction l with
  | nil => intro acc; simp
  | cons x l ih =>
    intro acc
    simp only [List.foldl_cons, List.map_cons, List.sum_cons]
    rw [ih (acc ++ x), String.length_append]
    omega

theorem map_length_sum_ones (l : List String) (h : ∀ x ∈ l, x.length = 1) :
    (l.map String.length).sum = l.length := by
  induction l with
  | nil => simp
  | cons x l ih =>
    simp only [List.map_cons, List.sum_cons, List.length_cons]
    rw [h x (List.mem_cons_self x l),
      ih (fun y hy => h y (List.mem_cons_of_mem x hy))]
    omega

theorem join_length_ones (l : List String) (h : ∀ x ∈ l, x.length = 1) :
    (String.join l).length = l.length := by
  have hj : (String.join l).length = (l.map String.length).sum := by
    simpa [String.join] using join_foldl_length l ""
  rw [hj, map_length_sum_ones l h]

/-- States reachable by the key-handling loop: bounded buffer of
one-character labels whose rendered text tracks `update_number_display`. -/
def GoodState (st : List String × String) : Prop :=
  st.1.length ≤ 5 ∧ (∀ x ∈ st.1, x.length = 1) ∧
    st.2 = numberDisplayString st.1

theorem digitLabels_length_one : ∀ l ∈ digitLabels, l.length = 1 := by
  decide

theorem stepKey_preserves (st : List String × String) (l : String)
    (h : GoodState st) : GoodState (stepKey st l) := by
  obtain ⟨hlen, hones, hdisp⟩ := h
  by_cases hdig : l ∈ digitLabels
  · by_cases h5 : st.1.length < 5
    · have hout : handleKeyLabel st.1 l =
          { buffer := st.1 ++ [l], submitted := none,
            numberDisplay := some (numberDisplayString (st.1 ++ [l])),
            status := some "Typing" } := by
        simp [handleKeyLabel, hdig, h5]
      refine ⟨?_, ?_, ?_⟩
      · simp only [stepKey, hout]
        simp only [List.length_append, List.length_singleton]
        omega
      · simp only [stepKey, hout]
        intro x hx
        rcases List.mem_append.1 hx with hx | hx
        · exact hones x hx
        · rw [List.mem_singleton.1 hx]
          exact digitLabels_length_one l hdig
      · simp [stepKey, hout]
    · have hout : handleKeyLabel st.1 l =
          { buffer := st.1, submitted := none, numberDisplay := none,
            status := none } := by
        simp [handleKeyLabel, hdig, h5]
      exact ⟨by simpa [stepKey, hout] using hlen,
        by simpa [stepKey, hout] using hones,
        by simpa [stepKey, hout] using hdisp⟩
  · by_cases hent : l = "Enter"
    · subst hent
      by_cases hb : st.1 = []
      · have hout : handleKeyLabel st.1 "Enter" =
            { buffer := st.1, submitted := none, numberDisplay := none,
              status := some "Enter (empty)" } := by
          simp [handleKeyLabel, hdig, hb]
        exact ⟨by simpa [stepKey, hout] using hlen,
          by simpa [stepKey, hout] using hones,
          by simpa [stepKey, hout] using hdisp⟩
      · have hout : handleKeyLabel st.1 "Enter" =
            { buffer := [], submitted := some (String.join st.1),
              numberDisplay := some (numberDisplayString []),
              status := some ("Entered " ++ String.join st.1) } := by
          simp [handleKeyLabel, hdig, hb]
        exact ⟨by simp [stepKey, hout], by simp [stepKey, hout],
          by simp [stepKey, hout]⟩
    · by_cases hmin : l = "-"
      · subst hmin
        have hne : ("-" : String) ≠ "Enter" := by decide
        have hout : handleKeyLabel st.1 "-" =
            { buffer := [], submitted := none,
              numberDisplay := some (numberDisplayString []),
              status := some "Cleared" } := by
          simp [handleKeyLabel, hdig, hne]
        exact ⟨by simp [stepKey, hout], by simp [stepKey, hout],
          by simp [stepKey, hout]⟩
      · have hout : handleKeyLabel st.1 l =
            { buffer := st.1, submitted := none, numberDisplay := none,
              status := some ("Pressed " ++ l) } := by
          simp [handleKeyLabel, hdig, hent, hmin]
        exact ⟨by simpa [stepKey, hout] using hlen,
          by simpa [stepKey, hout] using hones,
          by simpa [stepKey, hout] using hdisp⟩

theorem runKeys_good (ls : List String) : GoodState (runKeys ls) := by
  have init : GoodState ([], "_____") := by
    refine ⟨by simp, by simp, by decide⟩
  have go : ∀ (ls : List String) (st : List String × String),
      GoodState st → GoodState (ls.foldl stepKey st) := by
    intro ls
    induction ls with
    | nil => intro st h; simpa using h
    | cons l ls ih =>
      intro st h
      simpa using ih (stepKey st l) (stepKey_preserves st l h)
  simpa [runKeys] using go ls ([], "_____") init

/-- C10: after any sequence of processed key events, the rendered
number-input text is exactly the buffer contents joined, left-justified and
padded on the right with underscores to width 5, and it always has exactly 5
characters because the buffer length never exceeds 5. -/
theorem number_display_always_five_chars (ls : List String) :
    (runKeys ls).2 = ljust (String.join (runKeys ls).1) 5 '_' ∧
    ((runKeys ls).2).length = 5 ∧
    (runKeys ls).1.length ≤ 5 := by
  obtain ⟨hlen, hones, hdisp⟩ := runKeys_good ls
  refine ⟨hdisp, ?_, hlen⟩
  rw [hdisp]
  have hjoin : (String.join (runKeys ls).1).length = (runKeys ls).1.length :=
    join_length_ones _ hones
  simp only [numberDisplayString, ljust, String.length_append,
    String.length_mk, List.length_replicate]
  omega

end Keypad

namespace Allowlist

/-- Python `str.strip()`: drop whitespace from both ends. -/
def strip (s : String) : String :=
  String.mk
    (((s.data.dropWhile Char.isWhitespace).reverse.dropWhile
      Char.isWhitespace).reverse)

/-- Python `str.split(',')` on the character list: cut at every comma,
keeping empty pieces (so `""` splits to `[""]`). -/
def splitComma : List Char → List Char → List (List Char)
  | [], acc => [acc.reverse]
  | c :: cs, acc =>
    if c = ',' then acc.reverse :: splitComma cs []
    else splitComma cs (c :: acc)

/-- `_split_line` in `allowlist_reader.py`: comma split with each part
whitespace-stripped. -/
def splitLine (line : String) : List String :=
  (splitComma line.data []).map (fun cs => strip (String.mk cs))

/-- `_row_matches`: cell at `idx` equals the stripped student id; an index
out of range (Python `IndexError`) counts as no match. -/
def rowMatches (row : List String) (sid : String) (idx : Nat) : Bool :=
  match row.get? idx with
  | some cell => cell == sid
  | none => false

/-- The `for raw in data_lines` scan of `lookup_student`: first row whose id
cell matches wins; `none` when the loop falls through. -/
def scanRows (sid : String) (idx : Nat) : List String → Option (List String)
  | [] => none
  | raw :: rest =>
    if rowMatches (splitLine raw) sid idx then some (splitLine raw)
    else scanRows sid idx rest

/-- `data_lines` as chosen by `lookup_student`: drop the first line exactly
when its split contains the id column name, otherwise keep every line. -/
def dataRows (idColumn : String) : List String → List String
  | [] => []
  | l0 :: rest =>
    if (splitLine l0).contains idColumn then rest else l0 :: rest

/-- `id_idx` as chosen by `lookup_student`: position of the id column in the
header when a header is detected, else 0. -/
def idIdxOf (idColumn : String) : List String → Nat
  | [] => 0
  | l0 :: _ =>
    if (splitLine l0).contains idColumn then (splitLine l0).indexOf idColumn
    else 0

/-- Result row of `lookup_student`: the Python `dict(zip(header, padded))` is
modelled as the zipped association list, and the tuple return as the plain
row. -/
inductive LookupRow where
  | byHeader : List (String × String) → LookupRow
  | positional : List String → LookupRow
deriving DecidableEq

/-- `lookup_student` in `allowlist_reader.py`.  The file read is an `Except`
input: `.error err` models an `OSError` with message `err`, `.ok lines`
models `f.read().splitlines()`.  The second component is the trace of
messages printed (`print("Allowlist read failed:", err)`). -/
def lookupStudent (studentId idColumn : String)
    (file : Except String (List String)) : Option LookupRow × List String :=
  match file with
  | .error err => (none, ["Allowlist read failed: " ++ err])
  | .ok [] => (none, [])
  | .ok (l0 :: rest) =>
    let sid := strip studentId
    let header := splitLine l0
    match scanRows sid (idIdxOf idColumn (l0 :: rest))
        (dataRows idColumn (l0 :: rest)) with
    | some row =>
      (some (if header.contains idColumn then
          .byHeader (header.zip
            (row ++ List.replicate (header.length - row.length) ""))
        else .positional row), [])
    | none => (none, [])

/-- C5: the first line is treated as a header row exactly when its
comma-split cells contain the configured id-column name — in that case only
the remaining lines are scanned, using the column's header position;
otherwise the first line itself is searched as an ordinary data row (it is
checked first, at id index 0, before the rest). -/
theorem header_detection (sid idColumn l0 : String) (rest : List String) :
    (lookupStudent sid idColumn (.ok (l0 :: rest))).1 =
      (if (splitLine l0).contains idColumn then
        (scanRows (strip sid) ((splitLine l0).indexOf idColumn) rest).map
          (fun row => LookupRow.byHeader ((splitLine l0).zip
            (row ++ List.replicate ((splitLine l0).length - row.length) "")))
      else if rowMatches (splitLine l0) (strip sid) 0 then
        some (.positional (splitLine l0))
      else (scanRows (strip sid) 0 rest).map LookupRow.positional) := by
  by_cases hc : (splitLine l0).contains idColumn
  · simp only [lookupStudent, dataRows, idIdxOf, hc, if_true]
    cases hs : scanRows (strip sid) ((splitLine l0).indexOf idColumn) rest <;>
      simp [hs, hc]
  · simp only [lookupStudent, dataRows, idIdxOf, hc, if_false, scanRows]
    by_cases hm : rowMatches (splitLine l0) (strip sid) 0
    · simp [hm, hc]
    · simp only [hm, if_false]
      cases hs : scanRows (strip sid) 0 rest <;> simp [hs, hc, hm]

theorem scanRows_none_iff (sid : String) (idx : Nat) (rows : List String) :
    scanRows sid idx rows = none ↔
      ∀ raw ∈ rows, rowMatches (splitLine raw) sid idx = false := by
  induction rows with
  | nil => simp [scanRows]
  | cons raw rest ih =>
    by_cases hm : rowMatches (splitLine raw) sid idx
    · simp [scanRows, hm]
    · have hstep : scanRows sid idx (raw :: rest) = scanRows sid idx rest := by
        simp [scanRows, hm]
      rw [hstep, ih]
      constructor
      · intro h r hr
        rcases List.mem_cons.1 hr with rfl | hr
        · simpa using hm
        · exact h r hr
      · intro h r hr
        exact h r (List.mem_cons_of_mem _ hr)

theorem scanRows_some (sid : String) (idx : Nat) (rows : List String)
    (row : List String) (h : scanRows sid idx rows = some row) :
    ∃ pre raw post, rows = pre ++ raw :: post ∧ row = splitLine raw ∧
      rowMatches (splitLine raw) sid idx = true ∧
      ∀ r ∈ pre, rowMatches (splitLine r) sid idx = false := by
  induction rows with
  | nil => simp [scanRows] at h
  | cons raw0 rest ih =>
    by_cases hm : rowMatches (splitLine raw0) sid idx
    · refine ⟨[], raw0, rest, by simp, ?_, hm, by simp⟩
      simp [scanRows, hm] at h
      exact h.symm
    · simp only [scanRows, hm, if_false] at h
      obtain ⟨pre, raw, post, hsplit, hrow, hmatch, hpre⟩ := ih h
      refine ⟨raw0 :: pre, raw, post, by simp [hsplit], hrow, hmatch, ?_⟩
      intro r hr
      rcases List.mem_cons.1 hr with rfl | hr
      · simpa using hm
      · exact hpre r hr

/-- C6: the lookup is a linear first-match scan over the data rows.  For
every file and submitted id, the result is `none` exactly when no data row's
id cell (at the configured id index) equals the whitespace-stripped
submitted id — absence is the `none` return of a total function, not an
error; and whenever the scan finds a row, that row is the first match in
file order: every earlier data row fails the id comparison. -/
theorem lookup_first_match (sid idColumn : String) (lines : List String) :
    ((lookupStudent sid idColumn (.ok lines)).1 = none ↔
      ∀ raw ∈ dataRows idColumn lines,
        rowMatches (splitLine raw) (strip sid) (idIdxOf idColumn lines)
          = false) ∧
    (∀ row, scanRows (strip sid) (idIdxOf idColumn lines)
        (dataRows idColumn lines) = some row →
      ∃ pre raw post, dataRows idColumn lines = pre ++ raw :: post ∧
        row = splitLine raw ∧
        rowMatches (splitLine raw) (strip sid) (idIdxOf idColumn lines)
          = true ∧
        ∀ r ∈ pre,
          rowMatches (splitLine r) (strip sid) (idIdxOf idColumn lines)
            = false) := by
  constructor
  · cases lines with
    | nil => simp [lookupStudent, dataRows]
    | cons l0 rest =>
      simp only [lookupStudent]
      cases hs : scanRows (strip sid) (idIdxOf idColumn (l0 :: rest))
          (dataRows idColumn (l0 :: rest)) with
      | none =>
        simp only [if_true]
        rw [← scanRows_none_iff]
        simp [hs]
      | some r =>
        simp only []
        constructor
        · intro h; exact absurd h (by simp)
        · intro h
          have : scanRows (strip sid) (idIdxOf idColumn (l0 :: rest))
              (dataRows idColumn (l0 :: rest)) = none :=
            (scanRows_none_iff _ _ _).2 h
          rw [this] at hs
          exact absurd hs (by simp)
  · intro row hscan
    exact scanRows_some _ _ _ _ hscan

/-- C6 witness: on a concrete three-line file with a header, the no-match
characterisation holds and, the scan succeeding at the data row `123,2`,
looking up `123` skips the header, rejects the first data row `999,1` and
returns `123,2` as the first match. -/
theorem lookup_first_match_witness :
    ((lookupStudent "123" "PIN" (.ok ["PIN,A", "999,1", "123,2"])).1 = none ↔
      ∀ raw ∈ dataRows "PIN" ["PIN,A", "999,1", "123,2"],
        rowMatches (splitLine raw) (strip "123")
          (idIdxOf "PIN" ["PIN,A", "999,1", "123,2"]) = false) ∧
    (∃ pre raw post,
      dataRows "PIN" ["PIN,A", "999,1", "123,2"] = pre ++ raw :: post ∧
      ["123", "2"] = splitLine raw ∧
      rowMatches (splitLine raw) (strip "123")
        (idIdxOf "PIN" ["PIN,A", "999,1", "123,2"]) = true ∧
      ∀ r ∈ pre, rowMatches (splitLine r) (strip "123")
        (idIdxOf "PIN" ["PIN,A", "999,1", "123,2"]) = false) :=
  ⟨(lookup_first_match "123" "PIN" ["PIN,A", "999,1", "123,2"]).1,
    (lookup_first_match "123" "PIN" ["PIN,A", "999,1", "123,2"]).2
      ["123", "2"] (by decide)⟩

/-- C7 counterexample: the returned outcome for an unreadable file (an
`OSError` during `open`/`read`) is `None`, which is exactly the outcome for a
readable file in which the submitted id is absent — the two cases are not
distinguishable by the lookup's return value. -/
theorem data_error_equals_not_found :
    (lookupStudent "99999" "STUDENT_PIN" (.error "ENOENT")).1 = none ∧
    (lookupStudent "99999" "STUDENT_PIN"
      (.ok ["STUDENT_PIN,A,B,log", "12345,2,3,"])).1 = none := by
  decide

/-- C7 (amended): a missing/unreadable allowlist file does not crash the
lookup: the `OSError` is caught and the call returns `None` — the same
return value as a readable file without the id — after printing a
`Allowlist read failed` diagnostic; a readable file prints nothing, so the
two cases are distinguishable only by the printed diagnostic, never by the
returned outcome. -/
theorem data_error_is_caught (sid idColumn err : String)
    (lines : List String) :
    lookupStudent sid idColumn (.error err) =
      (none, ["Allowlist read failed: " ++ err]) ∧
    (lookupStudent sid idColumn (.ok lines)).2 = [] := by
  constructor
  · rfl
  · cases lines with
    | nil => rfl
    | cons l0 rest =>
      simp only [lookupStudent]
      cases scanRows (strip sid) (idIdxOf idColumn (l0 :: rest))
          (dataRows idColumn (l0 :: rest)) <;> rfl

end Allowlist

namespace Display

/-- Characters emitted to the LCD data register by `RGB1602.write_text` in
`rgb1602.py` (with `cols` the display's column count `self._col`): the text
is printed in full, and when `clear_line` is true and a row was given,
`max(cols - (col or 0) - len(text), 0)` spaces follow to blank the rest of
the line.  Python's `max(.., 0)` on the int expression coincides with
truncated `Nat` subtraction. -/
def writeTextEmitted (cols : Nat) (text : String) (col row : Option Nat)
    (clearLine : Bool) : List Char :=
  text.toList ++
    (if clearLine && row.isSome then
      List.replicate ((cols - col.getD 0) - text.length) ' '
    else [])

/-- C8 counterexample: on a 16-column display, writing a 17-character text at
column 0 with `clear_line` emits all 17 characters — the text is not
truncated to the display width, and the emitted line is longer than the
16-column width the claim requires. -/
theorem write_text_overflows :
    (writeTextEmitted 16 "ABCDEFGHIJKLMNOPQ" (some 0) (some 0) true).length
      = 17 ∧ (17 : Nat) ≠ 16 := by
  constructor
  · decide
  · decide

/-- C8 (amended): `write_text` never truncates.  With `clear_line` true and a
row given, the emitted characters are the full text followed by
`cols - col - len(text)` blanking spaces, so the emitted length is
`max len(text) (cols - col)`: exactly the remaining line width `cols - col`
when the text fits, and the untruncated text length — overflowing the line —
when it does not. -/
theorem write_text_clear_line_pads (cols col row : Nat) (text : String) :
    writeTextEmitted cols text (some col) (some row) true =
      text.toList ++ List.replicate ((cols - col) - text.length) ' ' ∧
    (writeTextEmitted cols text (some col) (some row) true).length =
      max text.length (cols - col) := by
  constructor
  · simp [writeTextEmitted]
  · have hlen : text.toList.length = text.length := by
      simp
    simp only [writeTextEmitted, Bool.and_self, Option.isSome_some,
      List.length_append, List.length_replicate, Option.getD_some, if_true]
    simp only [hlen]
    omega

end Display

namespace Menu

/-- Modelled from the spec: the menu navigation component (MenuNode and its
per-activation NavigationSession) is not present in the source tree; this is
the "move down" transition of spec section 4.2 on the session coordinates
`(scroll, cursor)` of a node with `total` entries and the fixed 2-row
window: if `cursor < 1` and `scroll + cursor + 1 < total` then the cursor
moves within the window; else if `scroll + 2 < total` the window shifts
down; else the input is a no-op. -/
def menuMoveDown (total : Nat) (st : Nat × Nat) : Nat × Nat :=
  if st.2 < 1 ∧ st.1 + st.2 + 1 < total then (st.1, st.2 + 1)
  else if st.1 + 2 < total then (st.1 + 1, st.2)
  else st

/-- Iterated "move down" inputs. -/
def menuMoveDownIter (total : Nat) : Nat → (Nat × Nat) → Nat × Nat
  | 0, st => st
  | n + 1, st => menuMoveDownIter total n (menuMoveDown total st)

theorem menuMoveDownIter_from_cursor_one (total : Nat) (h3 : 3 ≤ total) :
    ∀ (m s : Nat), s + 2 ≤ total →
      menuMoveDownIter total m (s, 1) = (min (s + m) (total - 2), 1) := by
  intro m
  induction m with
  | zero =>
    intro s hs
    simp only [menuMoveDownIter, Nat.add_zero]
    have : min s (total - 2) = s := Nat.min_eq_left (by omega)
    rw [this]
  | succ m ih =>
    intro s hs
    simp only [menuMoveDownIter]
    by_cases hlt : s + 2 < total
    · have hstep : menuMoveDown total (s, 1) = (s + 1, 1) := by
        simp only [menuMoveDown]
        rw [if_neg (by omega), if_pos (by omega)]
      rw [hstep, ih (s + 1) (by omega)]
      have : s + 1 + m = s + (m + 1) := by omega
      rw [this]
    · have hstep : menuMoveDown total (s, 1) = (s, 1) := by
        simp only [menuMoveDown]
        rw [if_neg (by omega), if_neg (by omega)]
      rw [hstep, ih s hs]
      have h1 : min (s + m) (total - 2) = total - 2 := by
        apply Nat.min_eq_right; omega
      have h2 : min (s + (m + 1)) (total - 2) = total - 2 := by
        apply Nat.min_eq_right; omega
      rw [h1, h2]

/-- C4: for a menu with `N ≥ 3` entries and the 2-row window, starting from
`scroll = 0, cursor = 0`, `N - 1` "move down" inputs reach the bottom state
`scroll = N - 2, cursor = 1`, and that state is a fixed point of "move
down" — any further move-down input is a no-op. -/
theorem menu_down_reaches_bottom (N : Nat) (hN : 3 ≤ N) :
    menuMoveDownIter N (N - 1) (0, 0) = (N - 2, 1) ∧
    menuMoveDown N (N - 2, 1) = (N - 2, 1) := by
  constructor
  · have hsplit : N - 1 = (N - 2) + 1 := by omega
    rw [hsplit]
    simp only [menuMoveDownIter]
    have hfirst : menuMoveDown N (0, 0) = (0, 1) := by
      simp only [menuMoveDown]
      rw [if_pos (by omega)]
    rw [hfirst,
      menuMoveDownIter_from_cursor_one N hN (N - 2) 0 (by omega)]
    have : min (0 + (N - 2)) (N - 2) = N - 2 := by omega
    rw [this]
  · simp only [menuMoveDown]
    rw [if_neg (by omega), if_neg (by omega)]

/-- C4 witness: a 4-entry menu reaches `(scroll, cursor) = (2, 1)` after 3
move-down inputs from the top, and a fourth input changes nothing. -/
theorem menu_down_reaches_bottom_witness :
    menuMoveDownIter 4 3 (0, 0) = (2, 1) ∧
    menuMoveDown 4 (2, 1) = (2, 1) :=
  menu_down_reaches_bottom 4 (by decide)

end Menu
